import Mathlib

/-!
Verification development for the `ArcPyWrapper.py` utility-class module
(`timeEnabledMosaicDataset`).  The Python module wraps a geoprocessing
backing store; here the wrapper's own logic is embedded shallowly:

* strings used as names/paths are modelled as `List Char` (`Str`), with the
  path separator modelled as `'/'` (the path functions below embed the
  behaviour of `os.path.dirname` / `os.path.basename` / `os.path.join` in
  their POSIX form);
* the backing store (the `arcpy` catalog) is an explicit `Store` value
  threaded through the operations, with the external services
  (`arcpy.env.scratchGDB`, `arcpy.env.scratchFolder`,
  `arcpy.CreateUniqueName`) supplied as an `ArcEnv` parameter;
* fallible Python code returns `Except PyErr`; raised exceptions
  (`arcpy.ExecuteError`, `TypeError`, `NameError`) become error values.
-/

/-- Names and catalog paths, modelled as lists of characters. -/
abbrev Str := List Char

/-- The platform path separator (modelled as a single separator character). -/
def isSep (c : Char) : Bool := c = '/'

/-- The maximal suffix of `s` containing no separator: the `tail` part of
`posixpath.split` and the value of `os.path.basename`. -/
def pathTail (s : Str) : Str := (s.reverse.takeWhile (fun a => !(isSep a))).reverse

/-- Everything up to and including the last separator of `s`: the raw `head`
part of `posixpath.split` before its trailing-separator strip. -/
def pathHead (s : Str) : Str := (s.reverse.dropWhile (fun a => !(isSep a))).reverse

/-- Remove trailing separators (`head.rstrip(sep)` in `posixpath.split`). -/
def rstripSep (s : Str) : Str := (s.reverse.dropWhile isSep).reverse

/-- Embedding of `os.path.basename`. -/
def basename (s : Str) : Str := pathTail s

/-- Embedding of `os.path.dirname`: the head part of the split, stripped of
trailing separators unless it is empty or consists only of separators. -/
def dirname (s : Str) : Str :=
  let head := pathHead s
  if head ≠ [] ∧ ¬ (head.all isSep) then rstripSep head else head

/-- Does the string start with the separator? -/
def startsWithSep : Str → Bool
  | [] => false
  | c :: _ => isSep c

/-- Does the string end with the separator? -/
def endsWithSep (s : Str) : Bool := startsWithSep s.reverse

/-- Embedding of the two-argument `os.path.join`. -/
def joinPath (g t : Str) : Str :=
  if startsWithSep t then t
  else if g = [] || endsWithSep g then g ++ t
  else g ++ '/' :: t

/-- Embedding of `decode_names(geodatabase_name, table_name=None)`: splits a
bare locator into directory and base components when no explicit name is
given, and forms the full path. -/
def decode_names (geodatabase_name : Str) (table_name : Option Str) :
    Str × Str × Str :=
  let p : Str × Str :=
    match table_name with
    | none => (dirname geodatabase_name, basename geodatabase_name)
    | some t => (geodatabase_name, t)
  let local_full_name := if p.1 = [] then p.2 else joinPath p.1 p.2
  (p.1, p.2, local_full_name)

/-- A character-replacement map (`replacechars`): keys are characters,
values are replacement strings. -/
abbrev RMap := List (Char × Str)

/-- Association lookup in a replacement map (`dict.get` with a default is
`(rget m c).getD ...`). -/
def rget (m : RMap) (c : Char) : Option Str :=
  match m with
  | [] => none
  | (k, v) :: rest => if k = c then some v else rget rest c

/-- The per-character replacement pass of `parse_table_name`:
`"".join([replacechars.get(ch, ch) for ch in table_name])`. -/
def parse_chars (m : RMap) : Str → Str
  | [] => []
  | c :: cs => ((rget m c).getD [c]) ++ parse_chars m cs

/-- Embedding of the module-level `parse_table_name(table_name, replacechars)`. -/
def parse_table_name (table_name : Str) (replacechars : Option RMap) : Str :=
  match replacechars with
  | none => table_name
  | some m => parse_chars m table_name

/-- The external `arcpy` environment: the scratch workspaces and the
uniqueness service `arcpy.CreateUniqueName(base_name, workspace)` (which
returns a full path). -/
structure ArcEnv where
  scratchGDB : Str
  scratchFolder : Str
  createUniqueName : Str → Str → Str

/-- Embedding of `initialize_names(geodatabase_name, table_name, temptable,
scratch, replacechars)` from the source (renamed here because of naming
restrictions).  `scratch = none` models passing Python `None`, in which case
`arcpy.env.scratchGDB` is used; the non-temporary branch sanitizes the
explicit name only when it is truthy (a non-empty string). -/
def init_names (env : ArcEnv) (geodatabase_name : Str) (table_name : Option Str)
    (temptable : Bool) (scratch : Option Str) (replacechars : Option RMap) :
    Str × Str × Str :=
  if temptable then
    let d := decode_names geodatabase_name table_name
    let g := if d.1 = [] then (match scratch with
                               | none => env.scratchGDB
                               | some s => s) else d.1
    let t := parse_table_name d.2.1 replacechars
    decode_names (env.createUniqueName t g) none
  else
    let t : Option Str :=
      match table_name with
      | some t => if t ≠ [] then some (parse_table_name t replacechars) else none
      | none => none
    decode_names geodatabase_name t

/-! ### Elapsed-time formatter (`Timer.report_elapsed_time`)

Python arithmetic on a non-negative elapsed time (a float, modelled as a
rational): `a % b` is `a - b * floor (a / b)` and `int` truncates toward
zero. -/

/-- Python's `%` on numbers: `a - b * floor (a / b)`. -/
def pyMod (a b : ℚ) : ℚ := a - b * (⌊a / b⌋ : ℤ)

/-- Python's `int(...)` on a number: truncation toward zero. -/
def pyInt (x : ℚ) : ℤ := if 0 ≤ x then ⌊x⌋ else -⌊-x⌋

/-- Embedding of the static method `Timer.report_elapsed_time`. -/
def report_elapsed_time (elapsed_time : ℚ) : String :=
  let seconds_time : ℤ := pyInt (pyMod elapsed_time 60)
  let seconds_string : String :=
    if seconds_time = 1 then "1 second" else toString seconds_time ++ " seconds"
  if elapsed_time < 60 then
    seconds_string
  else
    let minutes_time : ℤ := pyInt (pyMod elapsed_time 3600 / 60)
    let minutes_string : String :=
      if minutes_time = 1 then "1 minute" else toString minutes_time ++ " minutes"
    if elapsed_time < 3600 then
      minutes_string ++ " " ++ seconds_string
    else
      let hours_time : ℤ := pyInt (elapsed_time / 3600)
      let hours_string : String :=
        if hours_time = 1 then "1 hour" else toString hours_time ++ " hours"
      hours_string ++ " " ++ minutes_string ++ " " ++ seconds_string

/-- Modelled from the spec: a unit phrase, singular exactly when the value
is 1, plural otherwise. -/
def unitPhrase (n : ℤ) (unit : String) : String :=
  if n = 1 then "1 " ++ unit else toString n ++ " " ++ unit ++ "s"

/-- Mathematical `mod` on rationals, `a - b * floor (a / b)`, used to state
the spec's formulas `floor (t mod 60)` and `floor ((t mod 3600) / 60)`. -/
def ratMod (a b : ℚ) : ℚ := a - b * (⌊a / b⌋ : ℤ)

/-- Modelled from the spec: the three-tier elapsed-time formatter with
`s = floor (t mod 60)`, `m = floor ((t mod 3600) / 60)`, `h = floor (t / 3600)`,
each phrase singular exactly when its value is 1. -/
def report_elapsed_time_spec (t : ℚ) : String :=
  let s : ℤ := ⌊ratMod t 60⌋
  let m : ℤ := ⌊ratMod t 3600 / 60⌋
  let h : ℤ := ⌊t / 3600⌋
  if t < 60 then unitPhrase s "second"
  else if t < 3600 then unitPhrase m "minute" ++ " " ++ unitPhrase s "second"
  else unitPhrase h "hour" ++ " " ++ unitPhrase m "minute" ++ " " ++ unitPhrase s "second"

/-! ### Backing store, resource handles and lifecycle -/

/-- Python exceptions observable in this module. -/
inductive PyErr where
  | executeError
  | typeError
  | nameError
deriving DecidableEq, Repr

/-- The backing store's observable state: which paths exist, which paths a
`Delete_management` request fails to remove (the failure case the wrapper
checks for), the log of deletion requests issued, the informational messages
emitted through `output_msg`, and the errors added via `arcpy.AddError`. -/
structure Store where
  existing : List Str
  stubborn : List Str
  requests : List Str
  msgs : List Str
  errors : List Str
deriving DecidableEq, Repr

/-- Embedding of `arcpy.Exists`. -/
def arcpyExists (st : Store) (p : Str) : Bool := st.existing.contains p

/-- Embedding of `arcpy.Delete_management`: the request is always logged;
the path disappears unless the store refuses (`stubborn`). -/
def deleteManagement (st : Store) (p : Str) : Store :=
  { st with
    existing := if st.stubborn.contains p then st.existing
                else st.existing.filter (fun q => q ≠ p)
    requests := st.requests ++ [p] }

/-- Embedding of `arcpy.AddError`. -/
def addError (st : Store) (m : Str) : Store :=
  { st with errors := st.errors ++ [m] }

/-- The module-level global `log` (default `False`). -/
def logFlag : Bool := false

/-- The module-level global `std_out` (default `True`). -/
def stdOutFlag : Bool := true

/-- Embedding of the module-level `output_msg`: emits the message when
either output channel is enabled (with the module defaults it is). -/
def output_msg (st : Store) (m : Str) : Store :=
  if logFlag || stdOutFlag then { st with msgs := st.msgs ++ [m] } else st

/-- The `'Deleted: [{0}] '` informational message of `Table.delete` /
`Raster.delete`. -/
def deletedMsg (full : Str) : Str := "Deleted: [".data ++ full ++ "] ".data

/-- The default `replace_list` of `Table.__init__`: space to underscore,
period removed. -/
def replace_list : RMap := [(' ', ['_']), ('.', [])]

/-- A `Table` handle (also used for `FeatureClass`, which inherits the
whole identity/lifecycle contract unchanged). -/
structure Table where
  geodatabase_name : Str
  table_name : Str
  full_name : Str
  temp_table : Bool
deriving DecidableEq, Repr

/-- Embedding of `Table.delete`: trivial success when the path does not
exist; otherwise request deletion, re-check, report failure via `AddError`
if still present, else emit the informational message and succeed. -/
def Table.delete (self : Table) (st : Store) : Bool × Store :=
  if arcpyExists st self.full_name then
    let st1 := deleteManagement st self.full_name
    if arcpyExists st1 self.full_name then
      (false, addError st1 (self.full_name ++ " cannot be deleted".data))
    else
      (true, output_msg st1 (deletedMsg self.full_name))
  else (true, st)

/-- Embedding of `Table.__init__(geodatabase_name, table_name, temp_table)`:
resolves the names (passing `arcpy.env.scratchGDB` and `replace_list`), and
for a temporary table immediately calls `delete()`, raising
`arcpy.ExecuteError` when that call returns `False`. -/
def Table.init (env : ArcEnv) (geodatabase_name : Str) (table_name : Option Str)
    (temp_table : Bool) (st : Store) : Except PyErr (Table × Store) :=
  let names := init_names env geodatabase_name table_name temp_table
      (some env.scratchGDB) (some replace_list)
  let self : Table := ⟨names.1, names.2.1, names.2.2, temp_table⟩
  if temp_table then
    let r := self.delete st
    if r.1 = false then Except.error PyErr.executeError else Except.ok (self, r.2)
  else Except.ok (self, st)

/-- Embedding of `FeatureClass.__init__`, which only delegates to
`Table.__init__`. -/
def FeatureClass.init (env : ArcEnv) (geodatabase_name : Str)
    (table_name : Option Str) (temp_table : Bool) (st : Store) :
    Except PyErr (Table × Store) :=
  Table.init env geodatabase_name table_name temp_table st

/-- Embedding of `Table.__exit__` (and of the identical `Table.__del__`):
deletes exactly when the handle is temporary. -/
def Table.exit (self : Table) (st : Store) : Store :=
  if self.temp_table then (self.delete st).2 else st

/-- A `Raster` handle. -/
structure Raster where
  geodatabase_name : Str
  raster_name : Str
  full_name : Str
  temp_raster : Bool
deriving DecidableEq, Repr

/-- Embedding of `Raster.delete` (same logic as `Table.delete`, with the
`"Raster {0} cannot be deleted"` error text). -/
def Raster.delete (self : Raster) (st : Store) : Bool × Store :=
  if arcpyExists st self.full_name then
    let st1 := deleteManagement st self.full_name
    if arcpyExists st1 self.full_name then
      (false, addError st1 ("Raster ".data ++ self.full_name ++ " cannot be deleted".data))
    else
      (true, output_msg st1 (deletedMsg self.full_name))
  else (true, st)

/-- Embedding of `Raster.__init__(geodatabase_name, raster_name, temp_raster)`:
resolves the names (passing `arcpy.env.scratchFolder` and no replacement
map), and for a temporary raster calls `self.delete()` but ignores its
result: no exception is raised on deletion failure. -/
def Raster.init (env : ArcEnv) (geodatabase_name : Str) (raster_name : Option Str)
    (temp_raster : Bool) (st : Store) : Except PyErr (Raster × Store) :=
  let names := init_names env geodatabase_name raster_name temp_raster
      (some env.scratchFolder) none
  let self : Raster := ⟨names.1, names.2.1, names.2.2, temp_raster⟩
  if temp_raster then Except.ok (self, (self.delete st).2)
  else Except.ok (self, st)

/-- Embedding of `Raster.__exit__` (and the identical `Raster.__del__`). -/
def Raster.exit (self : Raster) (st : Store) : Store :=
  if self.temp_raster then (self.delete st).2 else st

/-- A `MosaicDataset` handle (the `mosaic_layer` field is external state and
not modelled). -/
structure MosaicDataset where
  geodatabase_name : Str
  mosaic_name : Str
  full_name : Str
  temp_mosaic : Bool
deriving DecidableEq, Repr

/-- Embedding of `MosaicDataset.delete`. -/
def MosaicDataset.delete (self : MosaicDataset) (st : Store) : Bool × Store :=
  if arcpyExists st self.full_name then
    let st1 := deleteManagement st self.full_name
    if arcpyExists st1 self.full_name then
      (false, addError st1 ("Mosaic ".data ++ self.full_name ++ " cannot be deleted".data))
    else
      (true, output_msg st1 ("Deleted mosaic dataset: [".data ++ self.full_name ++ "] ".data))
  else (true, st)

/-- Embedding of `MosaicDataset.__init__`: resolves the names (passing
`arcpy.env.scratchGDB`, no replacement map) and for a temporary mosaic calls
`delete()`, raising `arcpy.ExecuteError` when it returns `False`. -/
def MosaicDataset.init (env : ArcEnv) (geodatabase_name : Str)
    (mosaic_name : Option Str) (temp_mosaic : Bool) (st : Store) :
    Except PyErr (MosaicDataset × Store) :=
  let names := init_names env geodatabase_name mosaic_name temp_mosaic
      (some env.scratchGDB) none
  let self : MosaicDataset := ⟨names.1, names.2.1, names.2.2, temp_mosaic⟩
  if temp_mosaic then
    let r := self.delete st
    if r.1 = false then Except.error PyErr.executeError else Except.ok (self, r.2)
  else Except.ok (self, st)

/-- Embedding of `MosaicDataset.__exit__` (and the identical `__del__`). -/
def MosaicDataset.exit (self : MosaicDataset) (st : Store) : Store :=
  if self.temp_mosaic then (self.delete st).2 else st

/-! ### `Table.update_cursor` and Python name resolution -/

/-- The module-level names of `ArcPyWrapper.py` (imports, globals, functions
and classes), against which a free variable in a method body is resolved
after the local scope. -/
def moduleGlobals : List String :=
  ["arcpy", "os", "logging", "datetime", "time", "pd", "subprocess",
   "tempfile", "log", "std_out", "WMAS_ProjCS", "timer", "output_msg",
   "set_logging", "decode_names", "parse_table_name", "initialize_names",
   "Timer", "Table", "TempTable", "FeatureClass", "TempFeatureClass",
   "Raster", "TempRaster", "FeatureLayer", "MosaicLayer", "MosaicDataset",
   "TempMosaicDataset", "Progressor"]

/-- The local names bound in `Table.update_cursor`'s scope: its parameters
(note the fields parameter is named `ufields`). -/
def update_cursor_locals : List String :=
  ["self", "ufields", "where_clause", "spatial_reference",
   "explode_to_points", "sql_clause", "kwargs"]

/-- The free names of `Table.update_cursor`'s body, in Python evaluation
order: the callee `arcpy.da.UpdateCursor`, then the arguments
`self.full_name, field_names, where_clause, ...`. -/
def update_cursor_body_names : List String :=
  ["arcpy", "self", "field_names", "where_clause", "spatial_reference",
   "explode_to_points", "sql_clause", "kwargs"]

/-- Name resolution for `update_cursor`'s body: locals, then module globals. -/
def update_cursor_resolves (x : String) : Bool :=
  update_cursor_locals.contains x || moduleGlobals.contains x

/-- Embedding of `Table.update_cursor`: evaluating the body resolves its free
names in order; the first unresolved name raises `NameError` before the
backing-store cursor call, leaving the store untouched.  A `.ok` result
stands for the `arcpy.da.UpdateCursor` handle that would be returned. -/
def Table.update_cursor (self : Table) (st : Store) : Except PyErr Unit × Store :=
  match update_cursor_body_names.find? (fun x => !(update_cursor_resolves x)) with
  | some _ => (Except.error PyErr.nameError, st)
  | none => (Except.ok (), st)

/-! ### Overview building (`build_overviews`, `build_overviews_robust`)

`MosaicDataset`'s class body binds the name `build_overviews` twice: first
to a version that counts the still-unbuilt overviews (`Category > 2`) and
returns that count, then to a version that merely delegates to
`arcpy.BuildOverviews_management` and returns `None`.  Python class-body
semantics keep the later binding.  The still-unbuilt counts reported by the
backing store are an oracle `counts : Nat → Int` giving the count observed
after the k-th build call (k counted from 0). -/

/-- The two method bodies bound to the name `build_overviews`. -/
inductive BuildOverviewsVersion where
  | counting
  | delegating
deriving DecidableEq, Repr

/-- The class-body bindings of the name `build_overviews`, in source order. -/
def mosaicClassBody : List (String × BuildOverviewsVersion) :=
  [("build_overviews", BuildOverviewsVersion.counting),
   ("build_overviews", BuildOverviewsVersion.delegating)]

/-- Python class-body attribute resolution: later bindings overwrite
earlier ones. -/
def classAttr (body : List (String × BuildOverviewsVersion)) (x : String) :
    Option BuildOverviewsVersion :=
  body.foldl (fun acc kv => if kv.1 = x then some kv.2 else acc) none

/-- A Python value returned by a `build_overviews` call: an integer count
or `None`. -/
inductive PyVal where
  | vint (n : Int)
  | vnone
deriving DecidableEq, Repr

/-- Python's `v > 0`: comparing `None` with an integer raises `TypeError`. -/
def pyGt0 : PyVal → Except PyErr Bool
  | PyVal.vint n => Except.ok (decide (0 < n))
  | PyVal.vnone => Except.error PyErr.typeError

/-- The value returned by the k-th call of the bound `build_overviews`
method: the counting version returns the oracle's count, the delegating
version returns `None`. -/
def callBuildOverviews (v : BuildOverviewsVersion) (counts : Nat → Int)
    (k : Nat) : PyVal :=
  match v with
  | BuildOverviewsVersion.counting => PyVal.vint (counts k)
  | BuildOverviewsVersion.delegating => PyVal.vnone

/-- Outcome of `build_overviews_robust`: normal return, the fatal
`arcpy.ExecuteError` after exhausting retries, or the `TypeError` from
comparing `None > 0`; each records how many build calls were made. -/
inductive RobustOutcome where
  | ok (calls : Nat)
  | fatal (calls : Nat)
  | typeErr (calls : Nat)
deriving DecidableEq, Repr

/-- The `while unbuilt_overview_count > 0 and retry_count < max_retries`
loop of `build_overviews_robust`, followed by the final
`if unbuilt_overview_count > 0: raise`.  `remaining` is
`max_retries - retry_count`, so the loop guard `retry_count < max_retries`
is `remaining > 0`; `calls` counts the build calls already made and indexes
the oracle. -/
def robustLoop (v : BuildOverviewsVersion) (counts : Nat → Int) :
    Nat → PyVal → Nat → RobustOutcome
  | 0, unbuilt, calls =>
    match pyGt0 unbuilt with
    | Except.error _ => RobustOutcome.typeErr calls
    | Except.ok b => if b then RobustOutcome.fatal calls else RobustOutcome.ok calls
  | remaining + 1, unbuilt, calls =>
    match pyGt0 unbuilt with
    | Except.error _ => RobustOutcome.typeErr calls
    | Except.ok b =>
      if b then
        robustLoop v counts remaining (callBuildOverviews v counts calls) (calls + 1)
      else RobustOutcome.ok calls

/-- Embedding of `MosaicDataset.build_overviews_robust(max_retries)`,
parameterized by which `build_overviews` body is bound: one initial build
call, then the retry loop (`retry_count` starts at 1, so at most
`max_retries - 1` further calls), then the fatal check. -/
def build_overviews_robust (v : BuildOverviewsVersion) (counts : Nat → Int)
    (max_retries : Nat) : RobustOutcome :=
  robustLoop v counts (max_retries - 1) (callBuildOverviews v counts 0) 1

/-! ### Concrete scenario data -/

/-- The unbuilt-count sequence `[5, 2, 0]` of the spec's success scenario. -/
def countsA : Nat → Int := fun k => [(5 : Int), 2, 0].getD k 0

/-- The unbuilt-count sequence `[5, 3, 2]` of the spec's exhaustion scenario. -/
def countsB : Nat → Int := fun k => [(5 : Int), 3, 2].getD k 0

/-- A concrete environment: scratch workspaces `scrG` / `scr`, and a
uniqueness service that (with no collision to avoid) returns the candidate
joined to the workspace. -/
def env0 : ArcEnv := ⟨"scrG".data, "scr".data, fun n c => joinPath c n⟩

/-- A store in which `scr/r` exists and refuses deletion. -/
def stubbornRasterStore : Store :=
  ⟨["scr/r".data], ["scr/r".data], [], [], []⟩

/-- A non-temporary table handle over `gdb/t`. -/
def table0 : Table := ⟨"gdb".data, "t".data, "gdb/t".data, false⟩

/-- A store in which `gdb/t` exists and refuses deletion. -/
def stubbornTableStore : Store :=
  ⟨["gdb/t".data], ["gdb/t".data], [], [], []⟩

/-- Is a `Raster` construction result a usable handle (no exception)? -/
def rasterInitOk (e : Except PyErr (Raster × Store)) : Bool :=
  match e with
  | Except.ok _ => true
  | Except.error _ => false

/-- The store after a `Raster` construction (the given fallback if the
construction raised). -/
def rasterInitStore (e : Except PyErr (Raster × Store)) (fallback : Store) : Store :=
  match e with
  | Except.ok p => p.2
  | Except.error _ => fallback

/-- The empty backing store. -/
def emptyStore : Store := ⟨[], [], [], [], []⟩

/-- A store in which `gdb/t` exists and can be deleted normally. -/
def existsTableStore : Store := ⟨["gdb/t".data], [], [], [], []⟩

/-- A store in which `scrG/t` exists and refuses deletion. -/
def stubbornScrGStore : Store :=
  ⟨["scrG/t".data], ["scrG/t".data], [], [], []⟩

/-- A store in which `scr/r` exists and can be deleted normally. -/
def existsRasterStore : Store := ⟨["scr/r".data], [], [], [], []⟩

/-- A temporary table handle over `gdb/t`. -/
def table0temp : Table := ⟨"gdb".data, "t".data, "gdb/t".data, true⟩

/-- A temporary raster handle over `scr/r`. -/
def raster0temp : Raster := ⟨"scr".data, "r".data, "scr/r".data, true⟩

/-- The handle a temporary `Table.__init__(g, tn, temp_table=True)` builds
before its cleanup `delete()` call. -/
def tableTempSelf (env : ArcEnv) (g : Str) (tn : Option Str) : Table :=
  let names := init_names env g tn true (some env.scratchGDB) (some replace_list)
  ⟨names.1, names.2.1, names.2.2, true⟩

/-- The handle a temporary `Raster.__init__` builds before its cleanup
`delete()` call. -/
def rasterTempSelf (env : ArcEnv) (g : Str) (rn : Option Str) : Raster :=
  let names := init_names env g rn true (some env.scratchFolder) none
  ⟨names.1, names.2.1, names.2.2, true⟩

/-- The handle a temporary `MosaicDataset.__init__` builds before its
cleanup `delete()` call. -/
def mosaicTempSelf (env : ArcEnv) (g : Str) (mn : Option Str) : MosaicDataset :=
  let names := init_names env g mn true (some env.scratchGDB) none
  ⟨names.1, names.2.1, names.2.2, true⟩

/-- The spec's path formation: container and name joined by the separator,
or the name alone when the container is empty (this is also exactly how
`decode_names` forms its full path). -/
def full_path_of (container name : Str) : Str :=
  if container = [] then name else joinPath container name

/-! ### Theorems -/

/-- C10: for every receiver and store, calling `Table.update_cursor` raises
`NameError` (its body references `field_names` while the parameter is named
`ufields`, and no enclosing scope binds `field_names`), never returns a
cursor, and leaves the backing store unchanged. -/
theorem update_cursor_always_nameError (self : Table) (st : Store) :
    Table.update_cursor self st = (Except.error PyErr.nameError, st) := by
  rfl

/-- C1: in `MosaicDataset`'s class body the second, delegating definition of
`build_overviews` (which returns `None`) shadows the counting one, so
`build_overviews_robust` raises `TypeError` on its very first loop test
(after 1 build call) instead of retrying — here shown at the spec's
`max_retries = 3`, counts `[5, 2, 0]` scenario; under the shadowed counting
definition (the documented intent) the claim's behaviour does hold: counts
`[5, 2, 0]` with `max_retries = 3` returns normally after exactly 3 build
calls, and counts `[5, 3, 2]` with `max_retries = 2` raises the fatal
exhaustion error after the 2nd. -/
theorem build_overviews_robust_shadowed_typeError :
    classAttr mosaicClassBody "build_overviews"
      = some BuildOverviewsVersion.delegating
    ∧ build_overviews_robust BuildOverviewsVersion.delegating countsA 3
      = RobustOutcome.typeErr 1
    ∧ build_overviews_robust BuildOverviewsVersion.counting countsA 3
      = RobustOutcome.ok 3
    ∧ build_overviews_robust BuildOverviewsVersion.counting countsB 2
      = RobustOutcome.fatal 2 := by
  refine ⟨rfl, rfl, rfl, rfl⟩

theorem existing_output_msg (st : Store) (m : Str) :
    (output_msg st m).existing = st.existing := rfl

theorem arcpyExists_output_msg (st : Store) (m p : Str) :
    arcpyExists (output_msg st m) p = arcpyExists st p := rfl

theorem requests_deleteManagement (st : Store) (p : Str) :
    (deleteManagement st p).requests = st.requests ++ [p] := rfl

theorem requests_addError (st : Store) (m : Str) :
    (addError st m).requests = st.requests := rfl

theorem requests_output_msg (st : Store) (m : Str) :
    (output_msg st m).requests = st.requests := rfl

theorem contains_filter_ne (l : List Str) (p : Str) :
    (l.filter (fun q => q ≠ p)).contains p = false := by
  induction l with
  | nil => rfl
  | cons a l ih =>
    by_cases h : a = p
    · simp [List.filter, h, ih]
    · simp [List.filter, h, List.contains_cons, ih]
      exact fun hq => h hq.symm

theorem tableDelete_true_not_exists (self : Table) (st st2 : Store)
    (h : self.delete st = (true, st2)) :
    arcpyExists st2 self.full_name = false := by
  unfold Table.delete at h
  by_cases h1 : arcpyExists st self.full_name = true
  · rw [if_pos h1] at h
    by_cases h2 : arcpyExists (deleteManagement st self.full_name) self.full_name = true
    · rw [if_pos h2] at h
      exact absurd (congrArg Prod.fst h) (by simp)
    · rw [if_neg h2] at h
      have h3 := congrArg Prod.snd h
      simp at h3
      rw [← h3, arcpyExists_output_msg]
      simpa using h2
  · rw [if_neg h1] at h
    have h3 := congrArg Prod.snd h
    simp at h3
    rw [← h3]
    simpa using h1

theorem tableDelete_not_exists (self : Table) (st : Store)
    (h : arcpyExists st self.full_name = false) :
    self.delete st = (true, st) := by
  unfold Table.delete
  rw [if_neg (by simp [h])]

/-- C3 (amended): `delete()` on a non-existing path returns success and
leaves the store untouched (no deletion request); on an existing path it
issues exactly one deletion request and returns failure precisely when the
resource is still present afterwards, emitting the informational message on
success; and after any successful `delete()`, an immediately repeated
`delete()` returns success and leaves the backing store unchanged.  (The
original claim's unconditional "twice in succession returns success both
times" fails when the backing store refuses the deletion; see the
counterexample.) -/
theorem delete_contract :
    (∀ (tb : Table) (st : Store), arcpyExists st tb.full_name = false →
      tb.delete st = (true, st))
    ∧ (∀ (tb : Table) (st : Store), arcpyExists st tb.full_name = true →
      (tb.delete st).2.requests = st.requests ++ [tb.full_name]
      ∧ ((tb.delete st).1 = false
          ↔ arcpyExists (tb.delete st).2 tb.full_name = true)
      ∧ ((tb.delete st).1 = true →
          (tb.delete st).2.msgs = st.msgs ++ [deletedMsg tb.full_name]))
    ∧ (∀ (tb : Table) (st st2 : Store), tb.delete st = (true, st2) →
      tb.delete st2 = (true, st2)) := by
  refine ⟨fun tb st h => tableDelete_not_exists tb st h, ?_, ?_⟩
  · intro tb st h
    unfold Table.delete
    rw [if_pos h]
    by_cases h2 : arcpyExists (deleteManagement st tb.full_name) tb.full_name = true
    · rw [if_pos h2]
      refine ⟨rfl, ?_, ?_⟩
      · exact ⟨fun _ => h2, fun _ => rfl⟩
      · intro hfalse
        simp at hfalse
    · rw [if_neg h2]
      refine ⟨rfl, ?_, fun _ => rfl⟩
      constructor
      · intro hfalse
        simp at hfalse
      · intro hex
        rw [arcpyExists_output_msg] at hex
        exact absurd hex h2
  · intro tb st st2 h
    exact tableDelete_not_exists tb st2 (tableDelete_true_not_exists tb st st2 h)

theorem tableDelete_nonstubborn (self : Table) (st : Store)
    (h : st.stubborn.contains self.full_name = false) :
    arcpyExists (self.delete st).2 self.full_name = false := by
  unfold Table.delete
  by_cases h1 : arcpyExists st self.full_name = true
  · rw [if_pos h1]
    have h3 : self.full_name ∉ st.stubborn := by
      simpa using h
    have h2 : arcpyExists (deleteManagement st self.full_name) self.full_name = false := by
      simp [arcpyExists, deleteManagement, h3, List.mem_filter]
    rw [if_neg (by simp [h2])]
    exact h2
  · rw [if_neg h1]
    simpa using h1

theorem tableDelete_requests_of_exists (self : Table) (st : Store)
    (h : arcpyExists st self.full_name = true) :
    (self.delete st).2.requests = st.requests ++ [self.full_name] := by
  unfold Table.delete
  rw [if_pos h]
  by_cases h2 : arcpyExists (deleteManagement st self.full_name) self.full_name = true
  · rw [if_pos h2]; rfl
  · rw [if_neg h2]; rfl

theorem rasterDelete_not_exists (self : Raster) (st : Store)
    (h : arcpyExists st self.full_name = false) :
    self.delete st = (true, st) := by
  unfold Raster.delete
  rw [if_neg (by simp [h])]

theorem rasterDelete_nonstubborn (self : Raster) (st : Store)
    (h : st.stubborn.contains self.full_name = false) :
    arcpyExists (self.delete st).2 self.full_name = false := by
  unfold Raster.delete
  by_cases h1 : arcpyExists st self.full_name = true
  · rw [if_pos h1]
    have h3 : self.full_name ∉ st.stubborn := by
      simpa using h
    have h2 : arcpyExists (deleteManagement st self.full_name) self.full_name = false := by
      simp [arcpyExists, deleteManagement, h3, List.mem_filter]
    rw [if_neg (by simp [h2])]
    exact h2
  · rw [if_neg h1]
    simpa using h1

theorem tableExit_temp (self : Table) (st : Store)
    (h : self.temp_table = true) : self.exit st = (self.delete st).2 := by
  unfold Table.exit
  rw [if_pos h]

theorem rasterExit_temp (self : Raster) (st : Store)
    (h : self.temp_raster = true) : self.exit st = (self.delete st).2 := by
  unfold Raster.exit
  rw [if_pos h]

/-- C4: scope exit (`__exit__`, and the identical finalizer `__del__`)
invokes `delete()` exactly when the handle is temporary: for a
non-temporary handle the store is completely untouched (the resource
outlives the handle); for a temporary handle whose path exists a deletion
request is issued; and when the backing store honours deletion, after one
exit the resource is gone and a second exit through any other path is a
no-op that leaves the store unchanged.  Shown for `Table` (shared by
`FeatureClass`) and `Raster`. -/
theorem scope_exit_contract :
    (∀ (tb : Table) (st : Store), tb.temp_table = false → tb.exit st = st)
    ∧ (∀ (tb : Table) (st : Store), tb.temp_table = true →
        arcpyExists st tb.full_name = true →
        (tb.exit st).requests = st.requests ++ [tb.full_name])
    ∧ (∀ (tb : Table) (st : Store), tb.temp_table = true →
        st.stubborn.contains tb.full_name = false →
        arcpyExists (tb.exit st) tb.full_name = false
        ∧ tb.exit (tb.exit st) = tb.exit st)
    ∧ (∀ (r : Raster) (st : Store), r.temp_raster = false → r.exit st = st)
    ∧ (∀ (r : Raster) (st : Store), r.temp_raster = true →
        st.stubborn.contains r.full_name = false →
        arcpyExists (r.exit st) r.full_name = false
        ∧ r.exit (r.exit st) = r.exit st) := by
  refine ⟨?_, ?_, ?_, ?_, ?_⟩
  · intro tb st h
    unfold Table.exit
    rw [if_neg (by simp [h])]
  · intro tb st ht h
    rw [tableExit_temp tb st ht]
    exact tableDelete_requests_of_exists tb st h
  · intro tb st ht h
    have hne : arcpyExists (tb.exit st) tb.full_name = false := by
      rw [tableExit_temp tb st ht]
      exact tableDelete_nonstubborn tb st h
    refine ⟨hne, ?_⟩
    rw [tableExit_temp tb (tb.exit st) ht,
      tableDelete_not_exists tb (tb.exit st) hne]
  · intro r st h
    unfold Raster.exit
    rw [if_neg (by simp [h])]
  · intro r st ht h
    have hne : arcpyExists (r.exit st) r.full_name = false := by
      rw [rasterExit_temp r st ht]
      exact rasterDelete_nonstubborn r st h
    refine ⟨hne, ?_⟩
    rw [rasterExit_temp r (r.exit st) ht,
      rasterDelete_not_exists r (r.exit st) hne]

theorem mosaicDelete_true_not_exists (self : MosaicDataset) (st st2 : Store)
    (h : self.delete st = (true, st2)) :
    arcpyExists st2 self.full_name = false := by
  unfold MosaicDataset.delete at h
  by_cases h1 : arcpyExists st self.full_name = true
  · rw [if_pos h1] at h
    by_cases h2 : arcpyExists (deleteManagement st self.full_name) self.full_name = true
    · rw [if_pos h2] at h
      exact absurd (congrArg Prod.fst h) (by simp)
    · rw [if_neg h2] at h
      have h3 := congrArg Prod.snd h
      simp at h3
      rw [← h3]
      simpa using h2
  · rw [if_neg h1] at h
    have h3 := congrArg Prod.snd h
    simp at h3
    rw [← h3]
    simpa using h1

theorem rasterDelete_requests_of_exists (self : Raster) (st : Store)
    (h : arcpyExists st self.full_name = true) :
    (self.delete st).2.requests = st.requests ++ [self.full_name] := by
  unfold Raster.delete
  rw [if_pos h]
  by_cases h2 : arcpyExists (deleteManagement st self.full_name) self.full_name = true
  · rw [if_pos h2]; rfl
  · rw [if_neg h2]; rfl

theorem tableDelete_fails_of_stubborn (self : Table) (st : Store)
    (h1 : arcpyExists st self.full_name = true)
    (h2 : st.stubborn.contains self.full_name = true) :
    (self.delete st).1 = false := by
  have h2' : self.full_name ∈ st.stubborn := by simpa using h2
  have h3 : arcpyExists (deleteManagement st self.full_name) self.full_name = true := by
    simpa [arcpyExists, deleteManagement, h2'] using h1
  unfold Table.delete
  rw [if_pos h1, if_pos h3]

theorem mosaicDelete_fails_of_stubborn (self : MosaicDataset) (st : Store)
    (h1 : arcpyExists st self.full_name = true)
    (h2 : st.stubborn.contains self.full_name = true) :
    (self.delete st).1 = false := by
  have h2' : self.full_name ∈ st.stubborn := by simpa using h2
  have h3 : arcpyExists (deleteManagement st self.full_name) self.full_name = true := by
    simpa [arcpyExists, deleteManagement, h2'] using h1
  unfold MosaicDataset.delete
  rw [if_pos h1, if_pos h3]

theorem tableInit_ok_inv (env : ArcEnv) (g : Str) (tn : Option Str) (st : Store)
    (tb : Table) (st2 : Store)
    (h : Table.init env g tn true st = Except.ok (tb, st2)) :
    tb = tableTempSelf env g tn
    ∧ (tableTempSelf env g tn).delete st = (true, st2) := by
  have h' : (if ((tableTempSelf env g tn).delete st).1 = false
      then (Except.error PyErr.executeError : Except PyErr (Table × Store))
      else Except.ok (tableTempSelf env g tn, ((tableTempSelf env g tn).delete st).2))
      = Except.ok (tb, st2) := h
  rcases hdel : (tableTempSelf env g tn).delete st with ⟨b, st'⟩
  rw [hdel] at h'
  cases b with
  | false => simp at h'
  | true =>
    simp at h'
    refine ⟨h'.1.symm, ?_⟩
    rw [h'.2]

theorem mosaicInit_ok_inv (env : ArcEnv) (g : Str) (mn : Option Str) (st : Store)
    (md : MosaicDataset) (st2 : Store)
    (h : MosaicDataset.init env g mn true st = Except.ok (md, st2)) :
    md = mosaicTempSelf env g mn
    ∧ (mosaicTempSelf env g mn).delete st = (true, st2) := by
  have h' : (if ((mosaicTempSelf env g mn).delete st).1 = false
      then (Except.error PyErr.executeError : Except PyErr (MosaicDataset × Store))
      else Except.ok (mosaicTempSelf env g mn, ((mosaicTempSelf env g mn).delete st).2))
      = Except.ok (md, st2) := h
  rcases hdel : (mosaicTempSelf env g mn).delete st with ⟨b, st'⟩
  rw [hdel] at h'
  cases b with
  | false => simp at h'
  | true =>
    simp at h'
    refine ⟨h'.1.symm, ?_⟩
    rw [h'.2]

/-- C2 (amended): temporary construction calls `delete()` right after name
resolution.  For `Table` (and `FeatureClass`, which delegates to it) and
`MosaicDataset`, construction succeeds only with a clean slot (the resolved
path does not exist in the resulting store) and raises `ExecuteError` when
the cleanup `delete()` reports failure; `Raster.__init__`, however, invokes
`delete()` (the deletion request is issued) but ignores its result and
always returns a handle. -/
theorem temp_constructor_contract :
    (∀ (env : ArcEnv) (g : Str) (tn : Option Str) (st : Store) (tb : Table) (st2 : Store),
      Table.init env g tn true st = Except.ok (tb, st2) →
      arcpyExists st2 tb.full_name = false)
    ∧ (∀ (env : ArcEnv) (g : Str) (tn : Option Str) (st : Store),
      arcpyExists st (tableTempSelf env g tn).full_name = true →
      st.stubborn.contains (tableTempSelf env g tn).full_name = true →
      Table.init env g tn true st = Except.error PyErr.executeError)
    ∧ (∀ (env : ArcEnv) (g : Str) (mn : Option Str) (st : Store) (md : MosaicDataset) (st2 : Store),
      MosaicDataset.init env g mn true st = Except.ok (md, st2) →
      arcpyExists st2 md.full_name = false)
    ∧ (∀ (env : ArcEnv) (g : Str) (mn : Option Str) (st : Store),
      arcpyExists st (mosaicTempSelf env g mn).full_name = true →
      st.stubborn.contains (mosaicTempSelf env g mn).full_name = true →
      MosaicDataset.init env g mn true st = Except.error PyErr.executeError)
    ∧ (∀ (env : ArcEnv) (g : Str) (rn : Option Str) (st : Store),
      rasterInitOk (Raster.init env g rn true st) = true)
    ∧ (∀ (env : ArcEnv) (g : Str) (rn : Option Str) (st : Store),
      arcpyExists st (rasterTempSelf env g rn).full_name = true →
      (rasterInitStore (Raster.init env g rn true st) st).requests
        = st.requests ++ [(rasterTempSelf env g rn).full_name]) := by
  refine ⟨?_, ?_, ?_, ?_, ?_, ?_⟩
  · intro env g tn st tb st2 h
    obtain ⟨htb, hdel⟩ := tableInit_ok_inv env g tn st tb st2 h
    rw [htb]
    exact tableDelete_true_not_exists _ st st2 hdel
  · intro env g tn st h1 h2
    have hf : ((tableTempSelf env g tn).delete st).1 = false :=
      tableDelete_fails_of_stubborn _ st h1 h2
    have hrfl : Table.init env g tn true st
        = (if ((tableTempSelf env g tn).delete st).1 = false
           then (Except.error PyErr.executeError : Except PyErr (Table × Store))
           else Except.ok (tableTempSelf env g tn, ((tableTempSelf env g tn).delete st).2)) := rfl
    rw [hrfl, if_pos hf]
  · intro env g mn st md st2 h
    obtain ⟨hmd, hdel⟩ := mosaicInit_ok_inv env g mn st md st2 h
    rw [hmd]
    exact mosaicDelete_true_not_exists _ st st2 hdel
  · intro env g mn st h1 h2
    have hf : ((mosaicTempSelf env g mn).delete st).1 = false :=
      mosaicDelete_fails_of_stubborn _ st h1 h2
    have hrfl : MosaicDataset.init env g mn true st
        = (if ((mosaicTempSelf env g mn).delete st).1 = false
           then (Except.error PyErr.executeError : Except PyErr (MosaicDataset × Store))
           else Except.ok (mosaicTempSelf env g mn, ((mosaicTempSelf env g mn).delete st).2)) := rfl
    rw [hrfl, if_pos hf]
  · intro env g rn st
    rfl
  · intro env g rn st h
    have hrfl : rasterInitStore (Raster.init env g rn true st) st
        = ((rasterTempSelf env g rn).delete st).2 := rfl
    rw [hrfl]
    exact rasterDelete_requests_of_exists _ st h

/-- C2 counterexample: over a store where `scr/r` exists and refuses
deletion, constructing a temporary `Raster` (which resolves to `scr/r`)
returns a usable handle with no error even though its cleanup `delete()`
reports failure, and the pre-existing path still exists immediately after
construction — contradicting the claim for the `Raster` class. -/
theorem raster_temp_init_ignores_delete_failure :
    rasterInitOk (Raster.init env0 "r".data none true stubbornRasterStore) = true
    ∧ arcpyExists
        (rasterInitStore (Raster.init env0 "r".data none true stubbornRasterStore)
          stubbornRasterStore) "scr/r".data = true
    ∧ (raster0temp.delete stubbornRasterStore).1 = false := by
  refine ⟨rfl, ?_, ?_⟩ <;> decide

/-- C3 counterexample: over a store where `gdb/t` exists and refuses
deletion, calling `delete()` twice in succession returns failure both
times, contradicting the claim's unconditional "returns success both
times". -/
theorem delete_twice_after_failure :
    (table0.delete stubbornTableStore).1 = false
    ∧ (table0.delete (table0.delete stubbornTableStore).2).1 = false := by
  refine ⟨?_, ?_⟩ <;> decide

theorem delete_contract_witness :
    table0.delete emptyStore = (true, emptyStore)
    ∧ (table0.delete existsTableStore).2.requests
        = existsTableStore.requests ++ [table0.full_name]
    ∧ table0.delete (table0.delete existsTableStore).2
        = (true, (table0.delete existsTableStore).2) := by
  refine ⟨delete_contract.1 table0 emptyStore (by decide),
    (delete_contract.2.1 table0 existsTableStore (by decide)).1,
    delete_contract.2.2 table0 existsTableStore _ (by decide)⟩

theorem scope_exit_contract_witness :
    table0.exit existsTableStore = existsTableStore
    ∧ (table0temp.exit existsTableStore).requests
        = existsTableStore.requests ++ [table0temp.full_name]
    ∧ arcpyExists (table0temp.exit existsTableStore) table0temp.full_name = false
    ∧ table0temp.exit (table0temp.exit existsTableStore)
        = table0temp.exit existsTableStore
    ∧ arcpyExists (raster0temp.exit existsRasterStore) raster0temp.full_name = false := by
  refine ⟨scope_exit_contract.1 table0 existsTableStore (by decide),
    scope_exit_contract.2.1 table0temp existsTableStore (by decide) (by decide),
    (scope_exit_contract.2.2.1 table0temp existsTableStore (by decide) (by decide)).1,
    (scope_exit_contract.2.2.1 table0temp existsTableStore (by decide) (by decide)).2,
    (scope_exit_contract.2.2.2.2 raster0temp existsRasterStore (by decide) (by decide)).1⟩

theorem temp_constructor_contract_witness :
    arcpyExists emptyStore (tableTempSelf env0 "t".data none).full_name = false
    ∧ Table.init env0 "t".data none true stubbornScrGStore
        = Except.error PyErr.executeError
    ∧ arcpyExists emptyStore (mosaicTempSelf env0 "m".data none).full_name = false
    ∧ MosaicDataset.init env0 "t".data none true stubbornScrGStore
        = Except.error PyErr.executeError
    ∧ rasterInitOk (Raster.init env0 "r".data none true emptyStore) = true
    ∧ (rasterInitStore (Raster.init env0 "r".data none true existsRasterStore)
        existsRasterStore).requests
        = existsRasterStore.requests ++ [(rasterTempSelf env0 "r".data none).full_name] := by
  refine ⟨?_, ?_, ?_, ?_, ?_, ?_⟩
  · exact temp_constructor_contract.1 env0 "t".data none emptyStore
      (tableTempSelf env0 "t".data none) emptyStore (by rfl)
  · exact temp_constructor_contract.2.1 env0 "t".data none stubbornScrGStore
      (by decide) (by decide)
  · exact temp_constructor_contract.2.2.1 env0 "m".data none emptyStore
      (mosaicTempSelf env0 "m".data none) emptyStore (by rfl)
  · exact temp_constructor_contract.2.2.2.1 env0 "t".data none stubbornScrGStore
      (by decide) (by decide)
  · exact temp_constructor_contract.2.2.2.2.1 env0 "r".data none emptyStore
  · exact temp_constructor_contract.2.2.2.2.2 env0 "r".data none existsRasterStore
      (by decide)

theorem rget_mem (m : RMap) (c : Char) (v : Str) (h : rget m c = some v) :
    (c, v) ∈ m := by
  induction m with
  | nil => simp [rget] at h
  | cons p rest ih =>
    rcases p with ⟨k, v'⟩
    by_cases hk : k = c
    · rw [rget, if_pos hk] at h
      subst hk
      cases h
      exact List.mem_cons_self _ _
    · rw [rget, if_neg hk] at h
      exact List.mem_cons_of_mem _ (ih h)

theorem parse_chars_key_free (m : RMap)
    (hm : ∀ p ∈ m, ∀ c ∈ p.2, rget m c = none) :
    ∀ (n : Str) (c : Char), c ∈ parse_chars m n → rget m c = none := by
  intro n
  induction n with
  | nil =>
    intro c hc
    simp [parse_chars] at hc
  | cons c0 cs ih =>
    intro c hc
    simp only [parse_chars] at hc
    rcases List.mem_append.mp hc with h1 | h2
    · cases hrg : rget m c0 with
      | none =>
        rw [hrg] at h1
        simp at h1
        subst h1
        exact hrg
      | some v =>
        rw [hrg] at h1
        simp at h1
        exact hm (c0, v) (rget_mem m c0 v hrg) c h1
    · exact ih c h2

/-- C7: with the temporary flag set, resolution decodes the locator,
defaults the container to the supplied scratch default exactly when the
decoded container is empty (keeping the decoded container otherwise),
sanitizes the name, asks the uniqueness service for a collision-free
version of the sanitized name inside that container, and re-derives the
final `(container, name, full path)` triple from the service's answer —
for every uniqueness service `env.createUniqueName`. -/
theorem temp_resolution_contract :
    (∀ (env : ArcEnv) (g : Str) (tn : Option Str) (scratch : Option Str)
        (rmap : Option RMap),
      init_names env g tn true scratch rmap
        = decode_names
            (env.createUniqueName
              (parse_table_name (decode_names g tn).2.1 rmap)
              (if (decode_names g tn).1 = [] then scratch.getD env.scratchGDB
               else (decode_names g tn).1))
            none)
    ∧ (∀ (env : ArcEnv) (g : Str) (tn : Option Str) (scratch : Option Str),
      (decode_names g tn).1 ≠ [] →
      (if (decode_names g tn).1 = [] then scratch.getD env.scratchGDB
       else (decode_names g tn).1) = (decode_names g tn).1)
    ∧ (∀ (env : ArcEnv) (g : Str) (tn : Option Str) (scratch : Option Str),
      (decode_names g tn).1 = [] →
      (if (decode_names g tn).1 = [] then scratch.getD env.scratchGDB
       else (decode_names g tn).1) = scratch.getD env.scratchGDB) := by
  refine ⟨?_, ?_, ?_⟩
  · intro env g tn scratch rmap
    cases scratch with
    | none => rfl
    | some s => rfl
  · intro env g tn scratch h
    rw [if_neg h]
  · intro env g tn scratch h
    rw [if_pos h]

theorem temp_resolution_contract_witness :
    init_names env0 "t est".data none true none (some replace_list)
      = decode_names
          (env0.createUniqueName
            (parse_table_name (decode_names "t est".data none).2.1 (some replace_list))
            (if (decode_names "t est".data none).1 = [] then
              (none : Option Str).getD env0.scratchGDB
             else (decode_names "t est".data none).1))
          none
    ∧ (if (decode_names "gdb/t".data none).1 = [] then
        (none : Option Str).getD env0.scratchGDB
       else (decode_names "gdb/t".data none).1) = (decode_names "gdb/t".data none).1
    ∧ (if (decode_names "t".data none).1 = [] then
        (none : Option Str).getD env0.scratchGDB
       else (decode_names "t".data none).1) = (none : Option Str).getD env0.scratchGDB := by
  refine ⟨temp_resolution_contract.1 env0 "t est".data none none (some replace_list),
    temp_resolution_contract.2.1 env0 "gdb/t".data none none (by decide),
    temp_resolution_contract.2.2 env0 "t".data none none (by decide)⟩

/-- C9: non-temporary resolution with an explicit name treats the locator
directly as the container and the explicit argument as the name, the full
path being their join; in particular
`resolve("gdb/path", "MyTable", is_temporary=False)` gives container
`gdb/path`, name `MyTable`, full path `gdb/path/MyTable`. -/
theorem explicit_name_resolution :
    (∀ (env : ArcEnv) (g n : Str) (scratch : Option Str),
      n ≠ [] →
      init_names env g (some n) false scratch none
        = (g, n, if g = [] then n else joinPath g n))
    ∧ (∀ (env : ArcEnv) (scratch : Option Str),
      init_names env "gdb/path".data (some "MyTable".data) false scratch none
        = ("gdb/path".data, "MyTable".data, "gdb/path/MyTable".data)) := by
  constructor
  · intro env g n scratch h
    show decode_names g (if n ≠ [] then some (parse_table_name n none) else none)
      = (g, n, if g = [] then n else joinPath g n)
    rw [if_pos h]
    rfl
  · intro env scratch
    rfl

theorem explicit_name_resolution_witness :
    init_names env0 "gdb/path".data (some "MyTable".data) false none none
      = ("gdb/path".data, "MyTable".data, "gdb/path/MyTable".data) := by
  have h := explicit_name_resolution.1 env0 "gdb/path".data "MyTable".data none
    (by decide)
  rw [h]
  decide

/-- C5 counterexample: resolving the bare locator `gdb/a b.c`
non-temporarily with the default map (where the space character is a key
mapped to an underscore) yields the name `a b.c` with the space character
unreplaced — the claim's "holds on every resolution path" is false for the
non-temporary bare-locator path. -/
theorem bare_locator_skips_sanitization :
    (init_names env0 "gdb/a b.c".data none false none (some replace_list)).2.1
      = "a b.c".data
    ∧ rget replace_list ' ' = some "_".data
    ∧ ' ' ∈ (init_names env0 "gdb/a b.c".data none false none (some replace_list)).2.1 := by
  refine ⟨by decide, by decide, by decide⟩

/-- C5 (amended): when a `sanitize_map` is supplied, every character of the
name that is a key of the map is replaced by its mapped value on the
non-temporary path with an explicit (non-empty) name and on the temporary
path (explicit or bare locator, where the sanitized name is what is passed
to the uniqueness service); the container is never altered by
sanitization; replacement introduces no key characters when the map's
values are key-free; and `"a b.c"` with the default map resolves to
`"a_bc"`.  On the non-temporary bare-locator path, however, the map is not
applied at all (see the counterexample). -/
theorem sanitization_contract :
    (∀ (env : ArcEnv) (g n : Str) (scratch : Option Str) (m : RMap),
      n ≠ [] →
      init_names env g (some n) false scratch (some m)
        = (g, parse_table_name n (some m),
            if g = [] then parse_table_name n (some m)
            else joinPath g (parse_table_name n (some m))))
    ∧ (∀ (env : ArcEnv) (g : Str) (tn : Option Str) (scratch : Option Str)
        (m : Option RMap),
      init_names env g tn true scratch m
        = decode_names
            (env.createUniqueName
              (parse_table_name (decode_names g tn).2.1 m)
              (if (decode_names g tn).1 = [] then scratch.getD env.scratchGDB
               else (decode_names g tn).1))
            none)
    ∧ (∀ (env : ArcEnv) (g : Str) (scratch : Option Str) (m : Option RMap),
      init_names env g none false scratch m = decode_names g none)
    ∧ (∀ (m : RMap) (n : Str),
      (∀ p ∈ m, ∀ c ∈ p.2, rget m c = none) →
      ∀ c ∈ parse_table_name n (some m), rget m c = none)
    ∧ parse_table_name "a b.c".data (some replace_list) = "a_bc".data := by
  refine ⟨?_, ?_, ?_, ?_, by decide⟩
  · intro env g n scratch m h
    show decode_names g (if n ≠ [] then some (parse_table_name n (some m)) else none)
      = _
    rw [if_pos h]
    rfl
  · intro env g tn scratch m
    cases scratch with
    | none => rfl
    | some s => rfl
  · intro env g scratch m
    rfl
  · intro m n hm
    exact parse_chars_key_free m hm n

theorem sanitization_contract_witness :
    init_names env0 "g".data (some "a b.c".data) false none (some replace_list)
      = ("g".data, "a_bc".data, "g/a_bc".data)
    ∧ rget replace_list 'x' = none := by
  constructor
  · have h := sanitization_contract.1 env0 "g".data "a b.c".data none replace_list
      (by decide)
    rw [h]
    decide
  · have hkeyfree : ∀ p ∈ replace_list, ∀ c ∈ p.2, rget replace_list c = none := by
      decide
    have h := sanitization_contract.2.2.2.1 replace_list "x a".data hkeyfree 'x'
      (by decide)
    exact h

theorem takeWhile_append_sat (p : Char → Bool) (xs ys : List Char)
    (h : ∀ a ∈ xs, p a = true) :
    (xs ++ ys).takeWhile p = xs ++ ys.takeWhile p := by
  induction xs with
  | nil => simp
  | cons a l ih =>
    have ha : p a = true := h a (List.mem_cons_self a l)
    simp only [List.cons_append, List.takeWhile_cons, ha, if_true]
    rw [ih (fun b hb => h b (List.mem_cons_of_mem a hb))]

theorem takeWhile_sat (p : Char → Bool) (xs : List Char)
    (h : ∀ a ∈ xs, p a = true) : xs.takeWhile p = xs := by
  have := takeWhile_append_sat p xs [] h
  simpa using this

theorem dropWhile_append_sat (p : Char → Bool) (xs ys : List Char)
    (h : ∀ a ∈ xs, p a = true) :
    (xs ++ ys).dropWhile p = ys.dropWhile p := by
  induction xs with
  | nil => simp
  | cons a l ih =>
    have ha : p a = true := h a (List.mem_cons_self a l)
    simp only [List.cons_append, List.dropWhile_cons, ha, if_true]
    exact ih (fun b hb => h b (List.mem_cons_of_mem a hb))

theorem dropWhile_all_sat (p : Char → Bool) (xs : List Char)
    (h : ∀ a ∈ xs, p a = true) : xs.dropWhile p = [] := by
  have := dropWhile_append_sat p xs [] h
  simpa using this

theorem dropWhile_head_not (p : Char → Bool) (xs : List Char)
    (h : ∀ a ∈ xs, p a = false) : xs.dropWhile p = xs := by
  cases xs with
  | nil => rfl
  | cons a l =>
    have ha : p a = false := h a (List.mem_cons_self a l)
    simp [List.dropWhile_cons, ha]

theorem notSep_of_sepFree {l : Str} {a : Char} (h : '/' ∉ l) (ha : a ∈ l) :
    isSep a = false := by
  have : a ≠ '/' := fun he => h (he ▸ ha)
  simp [isSep, this]

theorem sepFree_startsWithSep (l : Str) (h : '/' ∉ l) :
    startsWithSep l = false := by
  cases l with
  | nil => rfl
  | cons a t =>
    exact notSep_of_sepFree h (List.mem_cons_self a t)

theorem basename_sepFree (n : Str) (h : '/' ∉ n) : basename n = n := by
  unfold basename pathTail
  rw [takeWhile_sat]
  · exact List.reverse_reverse n
  · intro a ha
    have ham : a ∈ n := List.mem_reverse.mp ha
    simp [notSep_of_sepFree h ham]

theorem pathHead_sepFree (n : Str) (h : '/' ∉ n) : pathHead n = [] := by
  unfold pathHead
  rw [dropWhile_all_sat]
  · rfl
  · intro a ha
    have ham : a ∈ n := List.mem_reverse.mp ha
    simp [notSep_of_sepFree h ham]

theorem dirname_sepFree (n : Str) (h : '/' ∉ n) : dirname n = [] := by
  unfold dirname
  rw [pathHead_sepFree n h]
  simp

theorem pathTail_join (c n : Str) (hn : '/' ∉ n) :
    pathTail (c ++ '/' :: n) = n := by
  unfold pathTail
  have hrev : (c ++ '/' :: n).reverse = n.reverse ++ '/' :: c.reverse := by
    rw [List.reverse_append, List.reverse_cons, List.append_assoc]
    rfl
  rw [hrev, takeWhile_append_sat]
  · simp [List.takeWhile_cons, isSep]
  · intro a ha
    have ham : a ∈ n := List.mem_reverse.mp ha
    simp [notSep_of_sepFree hn ham]

theorem pathHead_join (c n : Str) (hn : '/' ∉ n) :
    pathHead (c ++ '/' :: n) = c ++ ['/'] := by
  unfold pathHead
  have hrev : (c ++ '/' :: n).reverse = n.reverse ++ '/' :: c.reverse := by
    rw [List.reverse_append, List.reverse_cons, List.append_assoc]
    rfl
  rw [hrev, dropWhile_append_sat]
  · rw [List.dropWhile_cons]
    simp [isSep]
  · intro a ha
    have ham : a ∈ n := List.mem_reverse.mp ha
    simp [notSep_of_sepFree hn ham]

theorem rstripSep_sepFree_slash (c : Str) (hc : '/' ∉ c) :
    rstripSep (c ++ ['/']) = c := by
  unfold rstripSep
  rw [List.reverse_append]
  show (List.dropWhile isSep ('/' :: c.reverse)).reverse = c
  rw [List.dropWhile_cons]
  simp only [isSep]
  rw [if_pos (by simp)]
  rw [dropWhile_head_not]
  · exact List.reverse_reverse c
  · intro a ha
    have ham : a ∈ c := List.mem_reverse.mp ha
    exact notSep_of_sepFree hc ham

theorem dirname_join (c n : Str) (hc : '/' ∉ c) (hn : '/' ∉ n) (hne : c ≠ []) :
    dirname (c ++ '/' :: n) = c := by
  unfold dirname
  rw [pathHead_join c n hn]
  rw [if_pos]
  · exact rstripSep_sepFree_slash c hc
  · constructor
    · simp
    · cases c with
      | nil => exact absurd rfl hne
      | cons a t =>
        have ha : isSep a = false := notSep_of_sepFree hc (List.mem_cons_self a t)
        simp [List.all_cons, ha]

theorem joinPath_sepFree (c n : Str) (hc : '/' ∉ c) (hn : '/' ∉ n) (hne : c ≠ []) :
    joinPath c n = c ++ '/' :: n := by
  unfold joinPath
  rw [sepFree_startsWithSep n hn]
  have hend : endsWithSep c = false := by
    unfold endsWithSep
    apply sepFree_startsWithSep
    intro hmem
    exact hc (List.mem_reverse.mp hmem)
  simp [hne, hend]

/-- C8: for every container and name containing no path-separator
characters, resolving the full path built by joining container and name
(or the name alone when the container is empty) yields back exactly that
container and that name (and the same full path). -/
theorem resolve_round_trip :
    ∀ (c n : Str), '/' ∉ c → '/' ∉ n →
      decode_names (full_path_of c n) none = (c, n, full_path_of c n) := by
  intro c n hc hn
  by_cases hce : c = []
  · subst hce
    have hf : full_path_of [] n = n := by
      unfold full_path_of
      rw [if_pos rfl]
    rw [hf]
    show (dirname n, basename n,
      if dirname n = [] then basename n else joinPath (dirname n) (basename n))
      = ([], n, n)
    rw [dirname_sepFree n hn, basename_sepFree n hn]
    simp
  · have hf : full_path_of c n = c ++ '/' :: n := by
      unfold full_path_of
      rw [if_neg hce]
      exact joinPath_sepFree c n hc hn hce
    rw [hf]
    show (dirname (c ++ '/' :: n), pathTail (c ++ '/' :: n),
      if dirname (c ++ '/' :: n) = [] then pathTail (c ++ '/' :: n)
      else joinPath (dirname (c ++ '/' :: n)) (pathTail (c ++ '/' :: n)))
      = (c, n, c ++ '/' :: n)
    rw [dirname_join c n hc hn hce, pathTail_join c n hn]
    rw [if_neg hce]
    rw [joinPath_sepFree c n hc hn hce]

theorem resolve_round_trip_witness :
    decode_names (full_path_of "gdb".data "MyTable".data) none
      = ("gdb".data, "MyTable".data, full_path_of "gdb".data "MyTable".data) :=
  resolve_round_trip "gdb".data "MyTable".data (by decide) (by decide)

theorem strAppend_assoc (a b c : String) : a ++ b ++ c = a ++ (b ++ c) := by
  rcases a with ⟨la⟩
  rcases b with ⟨lb⟩
  rcases c with ⟨lc⟩
  show String.mk (la ++ lb ++ lc) = String.mk (la ++ (lb ++ lc))
  rw [List.append_assoc]

theorem secondsPhrase_eq (s : ℤ) :
    (if s = 1 then "1 second" else toString s ++ " seconds")
      = unitPhrase s "second" := by
  unfold unitPhrase
  by_cases h : s = 1
  · rw [if_pos h, if_pos h]
    exact rfl
  · rw [if_neg h, if_neg h]
    rw [strAppend_assoc, strAppend_assoc]
    exact rfl

theorem minutesPhrase_eq (m : ℤ) :
    (if m = 1 then "1 minute" else toString m ++ " minutes")
      = unitPhrase m "minute" := by
  unfold unitPhrase
  by_cases h : m = 1
  · rw [if_pos h, if_pos h]
    exact rfl
  · rw [if_neg h, if_neg h]
    rw [strAppend_assoc, strAppend_assoc]
    exact rfl

theorem hoursPhrase_eq (h : ℤ) :
    (if h = 1 then "1 hour" else toString h ++ " hours")
      = unitPhrase h "hour" := by
  unfold unitPhrase
  by_cases hh : h = 1
  · rw [if_pos hh, if_pos hh]
    exact rfl
  · rw [if_neg hh, if_neg hh]
    rw [strAppend_assoc, strAppend_assoc]
    exact rfl

theorem pyMod_nonneg (a b : ℚ) (hb : 0 < b) : 0 ≤ pyMod a b := by
  unfold pyMod
  have h := Int.sub_floor_div_mul_nonneg a hb
  calc (0 : ℚ) ≤ a - ⌊a / b⌋ * b := h
    _ = a - b * ⌊a / b⌋ := by ring

theorem pyInt_of_nonneg (x : ℚ) (h : 0 ≤ x) : pyInt x = ⌊x⌋ := by
  unfold pyInt
  rw [if_pos h]

/-- C6: for every non-negative elapsed time, the formatter agrees with the
spec's three-tier formatter: below 60 only a seconds phrase with
`s = floor (t mod 60)`; from 60 up to 3600 a minutes-then-seconds phrase
with `m = floor ((t mod 3600) / 60)`; from 3600 on an additional hours
phrase with `h = floor (t / 3600)`; each unit phrase singular exactly when
its value is 1, all values truncated (floored), never rounded. -/
theorem report_elapsed_time_refines (t : ℚ) (ht : 0 ≤ t) :
    report_elapsed_time t = report_elapsed_time_spec t := by
  have h1 : pyInt (pyMod t 60) = ⌊ratMod t 60⌋ :=
    pyInt_of_nonneg _ (pyMod_nonneg t 60 (by norm_num))
  have h2 : pyInt (pyMod t 3600 / 60) = ⌊ratMod t 3600 / 60⌋ := by
    apply pyInt_of_nonneg
    have := pyMod_nonneg t 3600 (by norm_num)
    positivity
  have h3 : pyInt (t / 3600) = ⌊t / 3600⌋ := by
    apply pyInt_of_nonneg
    positivity
  simp only [report_elapsed_time, report_elapsed_time_spec]
  rw [h1, h2, h3, secondsPhrase_eq, minutesPhrase_eq, hoursPhrase_eq]

theorem report_elapsed_time_refines_witness :
    (0 : ℚ) ≤ 3661
    ∧ report_elapsed_time 3661 = report_elapsed_time_spec 3661
    ∧ report_elapsed_time_spec 3661 = "1 hour 1 minute 1 second"
    ∧ report_elapsed_time_spec 45 = "45 seconds" := by
  refine ⟨by norm_num, report_elapsed_time_refines 3661 (by norm_num), ?_, ?_⟩
  · have hs : (⌊ratMod (3661 : ℚ) 60⌋ : ℤ) = 1 := by norm_num [ratMod]
    have hm : (⌊ratMod (3661 : ℚ) 3600 / 60⌋ : ℤ) = 1 := by norm_num [ratMod]
    have hh : (⌊(3661 : ℚ) / 3600⌋ : ℤ) = 1 := by norm_num
    simp only [report_elapsed_time_spec]
    rw [hs, hm, hh]
    norm_num [unitPhrase]
    exact rfl
  · have hs : (⌊ratMod (45 : ℚ) 60⌋ : ℤ) = 45 := by norm_num [ratMod]
    simp only [report_elapsed_time_spec]
    rw [hs]
    norm_num [unitPhrase]
    exact rfl
